import Mathlib

/-!
Verification development for the bankan kanban-board application.

The development shallowly embeds the two variants of the boards store:

* the localStorage-backed store (`createBoard`, `updateBoardTitle`,
  `archiveBoard`, `unarchiveBoard`, `validateBoard`, `generateNewIds`,
  `importBoards`, `exportBoard`), whose board trees carry no `position`
  fields, and
* the database-backed store (`updateListPositions`, `updateCardPositions`),
  whose lists and cards carry integer `position` fields.

JavaScript dynamic values flowing through `validateBoard` are modelled by a
`Json` inductive together with JavaScript truthiness, `typeof`-tests and the
`||` default operator.  Wall-clock reads (`Date.now()`,
`new Date().toISOString()`) and the random draw in `generateNewIds` are
modelled as explicit parameters, and each call to `localStorage.setItem`
performed by `saveBoards` is recorded in a write log.  Database and DOM
side effects (Supabase calls, file downloads) are external collaborators
and are outside the model.
-/

/-- A JSON value, as produced by `JSON.parse` / consumed by `JSON.stringify`.
Numbers are restricted to integers, which covers every value the
application stores. -/
inductive Json where
  | null
  | bool (b : Bool)
  | num (n : Int)
  | str (s : String)
  | arr (elems : List Json)
  | obj (fields : List (String × Json))

/-- JavaScript truthiness of a value (`!x` is the negation of this). -/
def Json.truthy : Json → Bool
  | .null => false
  | .bool b => b
  | .num n => n != 0
  | .str s => s != ""
  | .arr _ => true
  | .obj _ => true

/-- Whether `typeof x === "object"` holds in JavaScript: true for objects,
arrays and `null`. -/
def Json.typeofObject : Json → Bool
  | .null => true
  | .arr _ => true
  | .obj _ => true
  | _ => false

/-- Whether `typeof x === "string"` holds. -/
def Json.typeofString : Json → Bool
  | .str _ => true
  | _ => false

/-- Property access `x.key`: defined only on objects; `none` models the
JavaScript `undefined` result on every other value. -/
def Json.getField : Json → String → Option Json
  | .obj fields, key => fields.lookup key
  | _, _ => none

/-- Truthiness of a possibly-`undefined` value (`none` is `undefined`,
which is falsy). -/
def jsTruthyOpt : Option Json → Bool
  | none => false
  | some j => j.truthy

/-- The JavaScript default operator `a || b` where `a` may be `undefined`. -/
def jsOr (a : Option Json) (b : Json) : Json :=
  match a with
  | some j => if j.truthy then j else b
  | none => b

/-- Strict equality `x === s` between a dynamic value and a string. -/
def Json.eqStr : Json → String → Bool
  | .str t, s => t == s
  | _, _ => false

/-- Strict equality `x === true` for a possibly-`undefined` value, as used
by `validateBoard` for the `isArchived` field. -/
def jsEqTrue : Option Json → Bool
  | some (.bool true) => true
  | _ => false

/-! ## Data model of the localStorage-backed store

Runtime card/list/board shapes (`src/types`, localStorage variant).  The
`id`, `description`, `createdAt` and `lastModified` fields are kept as
dynamic `Json` values: `validateBoard` copies them from untrusted input
through `||` defaults without a type check, so at runtime they need not be
strings.  `title` is always a checked string and `isArchived` a boolean. -/

structure LCard where
  id : Json
  title : String
  description : Json

structure LList where
  id : Json
  title : String
  cards : List LCard

structure LBoard where
  id : Json
  title : String
  lists : List LList
  createdAt : Json
  lastModified : Json
  isArchived : Bool

/-- Result record returned by `importBoards`. -/
structure ImportResult where
  imported : Nat
  skipped : Nat
  errors : List String
deriving DecidableEq, Repr

/-- State of the localStorage-backed store: the in-memory board collection
plus the log of snapshots written by `saveBoards`
(`localStorage.setItem("bankan-boards", ...)`). -/
structure LocalStoreState where
  boards : List LBoard
  writes : List (List LBoard)

/-- `getBoardById`: first board with the given id, or `null`.  The source
compares `b.id === id` where `id` is a string. -/
def getBoardById (bs : List LBoard) (id : String) : Option LBoard :=
  bs.find? (fun b => b.id.eqStr id)

/-- In-place mutation of the board returned by `getBoardById`: the first
board whose id strictly equals `id` is replaced by `f` applied to it. -/
def updateFirstLBoard (bs : List LBoard) (id : String) (f : LBoard → LBoard) :
    List LBoard :=
  match bs with
  | [] => []
  | b :: rest =>
    if b.id.eqStr id then f b :: rest else b :: updateFirstLBoard rest id f

/-- `createBoard` (localStorage variant): pushes a new board with the given
title — no validation of the title — saves, and returns the new id.
`ts` is `Date.now()` and `nowIso` is `new Date().toISOString()`. -/
def createBoard (st : LocalStoreState) (title : String) (ts : Nat)
    (nowIso : String) : LocalStoreState × String :=
  let newBoard : LBoard :=
    { id := .str s!"board-{ts}"
      title := title
      lists := []
      createdAt := .str nowIso
      lastModified := .str nowIso
      isArchived := false }
  let boards := st.boards ++ [newBoard]
  ({ boards := boards, writes := st.writes ++ [boards] }, s!"board-{ts}")

/-- JavaScript `String.prototype.trim()`: strips leading and trailing
whitespace.  Defined over the character list so that it evaluates by
kernel reduction. -/
def jsTrim (s : String) : String :=
  ⟨((s.data.dropWhile Char.isWhitespace).reverse.dropWhile Char.isWhitespace).reverse⟩

/-- `createBoard` handler of the dashboard view: the store-level
`createBoard` runs only when the entered name is non-empty after trimming,
and receives the trimmed name. -/
def dashboardCreateBoard (st : LocalStoreState) (newBoardName : String)
    (ts : Nat) (nowIso : String) : LocalStoreState :=
  if jsTrim newBoardName != "" then
    (createBoard st (jsTrim newBoardName) ts nowIso).1
  else st

/-- `updateBoardTitle`: if the board exists, set its title to `newTitle`
(unconditionally), bump `lastModified` and save. -/
def updateBoardTitle (st : LocalStoreState) (boardId newTitle nowIso : String) :
    LocalStoreState :=
  match getBoardById st.boards boardId with
  | none => st
  | some _ =>
    let boards := updateFirstLBoard st.boards boardId (fun b =>
      { b with title := newTitle, lastModified := .str nowIso })
    { boards := boards, writes := st.writes ++ [boards] }

/-- `saveEdit` of the board card component followed by the dashboard
`handleRename` handler: the rename event fires only when the edited title
is non-empty after trimming, and carries the trimmed title. -/
def saveEditRename (st : LocalStoreState) (boardId editedTitle nowIso : String) :
    LocalStoreState :=
  if jsTrim editedTitle != "" then
    updateBoardTitle st boardId (jsTrim editedTitle) nowIso
  else st

/-- `archiveBoard`: if the board exists, set `isArchived := true`, bump
`lastModified` and save. -/
def archiveBoard (st : LocalStoreState) (boardId nowIso : String) :
    LocalStoreState :=
  match getBoardById st.boards boardId with
  | none => st
  | some _ =>
    let boards := updateFirstLBoard st.boards boardId (fun b =>
      { b with isArchived := true, lastModified := .str nowIso })
    { boards := boards, writes := st.writes ++ [boards] }

/-- `unarchiveBoard`: if the board exists, set `isArchived := false`, bump
`lastModified` and save. -/
def unarchiveBoard (st : LocalStoreState) (boardId nowIso : String) :
    LocalStoreState :=
  match getBoardById st.boards boardId with
  | none => st
  | some _ =>
    let boards := updateFirstLBoard st.boards boardId (fun b =>
      { b with isArchived := false, lastModified := .str nowIso })
    { boards := boards, writes := st.writes ++ [boards] }

/-! ## Import / export -/

/-- JavaScript `array.map((x, i) => f i x)`, with an explicit start index to
ease induction; every use in the embedding starts at 0. -/
def mapIdxFrom (start : Nat) (f : Nat → α → β) : List α → List β
  | [] => []
  | a :: rest => f start a :: mapIdxFrom (start + 1) f rest

/-- `generateNewIds`: deep copy of a board with every identifier rebuilt
from `Date.now()` (`timestamp`) and a random draw (`random`), indexed by
list and card position. -/
def generateNewIds (board : LBoard) (timestamp random : Nat) : LBoard :=
  { board with
    id := .str s!"board-{timestamp}-{random}"
    lists := mapIdxFrom 0 (fun listIndex list =>
      { list with
        id := .str s!"list-{timestamp}-{random}-{listIndex}"
        cards := mapIdxFrom 0 (fun cardIndex card =>
          { card with
            id := .str s!"card-{timestamp}-{random}-{listIndex}-{cardIndex}" })
          list.cards }) board.lists }

/-- Body of the card loop of `validateBoard`: `none` (continue) unless the
entry is an object with a truthy string `title`; `id` and `description`
fall back through `||` to a temp id and the empty string. -/
def validateCardEntry (card : Json) (ts : Nat) : Option LCard :=
  if ¬ (card.truthy ∧ card.typeofObject) then none
  else
    match card.getField "title" with
    | some (.str t) =>
      if t = "" then none
      else
        some
          { id := jsOr (card.getField "id") (.str s!"temp-{ts}")
            title := t
            description := jsOr (card.getField "description") (.str "") }
    | _ => none

/-- The card loop of `validateBoard`: invalid entries are dropped. -/
def processCards (cards : List Json) (ts : Nat) : List LCard :=
  cards.filterMap (fun card => validateCardEntry card ts)

/-- Body of the list loop of `validateBoard`: `none` (continue) unless the
entry is an object with a truthy string `title`; a non-array (or absent)
`cards` field yields an empty card list. -/
def validateListEntry (list : Json) (ts : Nat) : Option LList :=
  if ¬ (list.truthy ∧ list.typeofObject) then none
  else
    match list.getField "title" with
    | some (.str t) =>
      if t = "" then none
      else
        some
          { id := jsOr (list.getField "id") (.str s!"temp-{ts}")
            title := t
            cards :=
              match list.getField "cards" with
              | some (.arr cs) => processCards cs ts
              | _ => [] }
    | _ => none

/-- The list loop of `validateBoard`: invalid entries are dropped. -/
def processLists (lists : List Json) (ts : Nat) : List LList :=
  lists.filterMap (fun list => validateListEntry list ts)

/-- `validateBoard`: structural validation of one untrusted candidate board.
A candidate must be a non-null object with a truthy string `title` and an
array `lists`; invalid lists and cards are silently dropped by
`processLists` / `processCards`.  `ts` is `Date.now()` (temp ids) and
`nowIso` is `new Date().toISOString()` (timestamp defaults). -/
def validateBoard (data : Json) (ts : Nat) (nowIso : String) :
    Except String LBoard :=
  if ¬ (data.truthy ∧ data.typeofObject) then
    .error "Invalid board data: not an object"
  else
    match data.getField "title" with
    | some (.str t) =>
      if t = "" then .error "Missing or invalid board title"
      else
        match data.getField "lists" with
        | some (.arr ls) =>
          .ok
            { id := jsOr (data.getField "id") (.str s!"temp-{ts}")
              title := t
              lists := processLists ls ts
              createdAt := jsOr (data.getField "createdAt") (.str nowIso)
              lastModified := jsOr (data.getField "lastModified") (.str nowIso)
              isArchived := jsEqTrue (data.getField "isArchived") }
        | _ => .error "Missing or invalid lists array"
    | _ => .error "Missing or invalid board title"

/-- `JSON.stringify` of a card (property insertion order id, title,
description, as built by `addCard` / `validateBoard`). -/
def cardToJson (c : LCard) : Json :=
  .obj [("id", c.id), ("title", .str c.title), ("description", c.description)]

/-- `JSON.stringify` of a list (property order id, title, cards). -/
def listToJson (l : LList) : Json :=
  .obj [("id", l.id), ("title", .str l.title),
        ("cards", .arr (l.cards.map cardToJson))]

/-- `JSON.stringify` of a board, i.e. the JSON document written to the file
downloaded by `exportBoard`.  Since `JSON.parse ∘ JSON.stringify` is the
identity on these values, re-importing an exported board feeds exactly this
value to `importBoards`. -/
def boardToJson (b : LBoard) : Json :=
  .obj [("id", b.id), ("title", .str b.title),
        ("lists", .arr (b.lists.map listToJson)),
        ("createdAt", b.createdAt), ("lastModified", b.lastModified),
        ("isArchived", .bool b.isArchived)]

/-- Loop body of `importBoards` over the normalized candidate sequence.
`i` is the 0-based loop index (used in error messages), `k` counts the
boards imported so far, and `gen k` supplies the `(Date.now(), random)`
pair consumed by the `k`-th call to `generateNewIds`.  Returns the boards
pushed onto the collection and the imported/skipped/error tallies. -/
def importLoop (cands : List Json) (i k ts : Nat) (gen : Nat → Nat × Nat)
    (nowIso : String) : List LBoard × ImportResult :=
  match cands with
  | [] => ([], ⟨0, 0, []⟩)
  | c :: rest =>
    match validateBoard c ts nowIso with
    | .ok board =>
      let pair := gen k
      let boardWithNewIds :=
        { generateNewIds board pair.1 pair.2 with lastModified := .str nowIso }
      let tail := importLoop rest (i + 1) (k + 1) ts gen nowIso
      (boardWithNewIds :: tail.1,
       ⟨tail.2.imported + 1, tail.2.skipped, tail.2.errors⟩)
    | .error e =>
      let tail := importLoop rest (i + 1) k ts gen nowIso
      (tail.1,
       ⟨tail.2.imported, tail.2.skipped + 1, s!"Board {i + 1}: {e}" :: tail.2.errors⟩)

/-- `importBoards`.  `parseResult` is the outcome of `JSON.parse` on the
file content: `JSON.parse` is an external built-in, so an unparseable input
is modelled as `.error msg` with `msg` the thrown `SyntaxError` message
recorded by the `catch` block.  On success the payload is normalized to an
array, each candidate is validated and (if valid) pushed with regenerated
ids and a fresh `lastModified`, and `saveBoards` runs once iff at least one
board was imported. -/
def importBoards (parseResult : Except String Json) (gen : Nat → Nat × Nat)
    (ts : Nat) (nowIso : String) (st : LocalStoreState) :
    LocalStoreState × ImportResult :=
  match parseResult with
  | .error msg => (st, ⟨0, 0, [msg]⟩)
  | .ok parsed =>
    let boardsToImport : List Json :=
      match parsed with
      | .arr xs => xs
      | j => [j]
    let out := importLoop boardsToImport 0 0 ts gen nowIso
    let newBoards := st.boards ++ out.1
    if out.2.imported > 0 then
      ({ boards := newBoards, writes := st.writes ++ [newBoards] }, out.2)
    else
      ({ st with boards := newBoards }, out.2)

/-! ## Data model of the database-backed store

The database-backed variant carries integer `position` fields on lists and
cards (JavaScript numbers; the store only ever writes array indices). -/

structure PCard where
  id : String
  title : String
  description : String
  position : Int
deriving DecidableEq, Repr

structure PList where
  id : String
  title : String
  position : Int
  cards : List PCard
deriving DecidableEq, Repr

structure PBoard where
  id : String
  title : String
  lists : List PList
  createdAt : String
  lastModified : String
  isArchived : Bool
deriving DecidableEq, Repr

/-- `getBoardById` of the database-backed store. -/
def getPBoardById (bs : List PBoard) (id : String) : Option PBoard :=
  bs.find? (fun b => b.id == id)

/-- In-place mutation of the first board with the given id (the object
returned by `getBoardById`). -/
def updateFirstPBoard (bs : List PBoard) (id : String) (f : PBoard → PBoard) :
    List PBoard :=
  match bs with
  | [] => []
  | b :: rest =>
    if b.id == id then f b :: rest else b :: updateFirstPBoard rest id f

/-- In-place mutation of the first list with the given id (the object
returned by `board.lists.find`). -/
def updateFirstPList (ls : List PList) (id : String) (f : PList → PList) :
    List PList :=
  match ls with
  | [] => []
  | l :: rest =>
    if l.id == id then f l :: rest else l :: updateFirstPList rest id f

/-- `updateListPositions` (the store method behind `reorderLists`): on the
success path of the Supabase upsert, the found board's `lists` is replaced
by the supplied sequence with `position := index`, and `lastModified` is
bumped.  The upsert payload and the `boards.updated_at` write are external
database effects. -/
def updateListPositions (bs : List PBoard) (boardId : String)
    (lists : List PList) (nowIso : String) : List PBoard :=
  updateFirstPBoard bs boardId (fun board =>
    { board with
      lists := mapIdxFrom 0 (fun index list => { list with position := (index : Int) }) lists
      lastModified := nowIso })

/-- `updateCardPositions` (the store method behind `reorderCards`): on the
success path, the found list's `cards` is replaced by the supplied sequence
with `position := index`; `lastModified` is bumped whenever the board is
found, even if the list is not. -/
def updateCardPositions (bs : List PBoard) (boardId listId : String)
    (cards : List PCard) (nowIso : String) : List PBoard :=
  updateFirstPBoard bs boardId (fun board =>
    { board with
      lists := updateFirstPList board.lists listId (fun list =>
        { list with
          cards := mapIdxFrom 0 (fun index card => { card with position := (index : Int) }) cards })
      lastModified := nowIso })

/-! ## Derived notions used by the statements -/

/-- Whether one candidate passes `validateBoard`. -/
def validateOk (c : Json) (ts : Nat) (nowIso : String) : Bool :=
  match validateBoard c ts nowIso with
  | .ok _ => true
  | .error _ => false

/-- The structure of a card visible to the round-trip claim: its title and
description. -/
def LCard.shape (c : LCard) : String × Json :=
  (c.title, c.description)

/-- The structure of a list visible to the round-trip claim: its title and
the shapes of its cards in order. -/
def LList.shape (l : LList) : String × List (String × Json) :=
  (l.title, l.cards.map LCard.shape)

/-- The structure of a board visible to the round-trip claim: its title and
the shapes of its lists in order. -/
def LBoard.shape (b : LBoard) : String × List (String × List (String × Json)) :=
  (b.title, b.lists.map LList.shape)

/-- All identifiers occurring in a board: its own id, every list id and
every card id. -/
def LBoard.allIds (b : LBoard) : List Json :=
  b.id :: b.lists.flatMap (fun l => l.id :: l.cards.map (fun c => c.id))

/-- Structural validity of a stored card as needed for a faithful
round-trip: non-empty title, and a description that survives the `||`
default (truthy, or exactly the empty string). -/
def LCard.wf (c : LCard) : Bool :=
  c.title != "" && (c.description.truthy || c.description.eqStr "")

/-- Structural validity of a stored list: non-empty title and valid cards. -/
def LList.wf (l : LList) : Bool :=
  l.title != "" && l.cards.all LCard.wf

/-- Structural validity of a stored board: non-empty title and valid lists. -/
def LBoard.wf (b : LBoard) : Bool :=
  b.title != "" && b.lists.all LList.wf

/-- The number of cards in each list of a board, in order. -/
def cardCounts (b : LBoard) : List Nat :=
  b.lists.map (fun l => l.cards.length)

/-- The identifier strings minted by `generateNewIds` for a board whose
lists carry the given card counts. -/
def genIdStrings (t r : Nat) (counts : List Nat) : List String :=
  s!"board-{t}-{r}" ::
    (mapIdxFrom 0 (fun i n =>
      s!"list-{t}-{r}-{i}" ::
        (List.range n).map (fun j => s!"card-{t}-{r}-{i}-{j}")) counts).flatten

/-- Index of the first element satisfying `p` (the index of the element
`find?` returns). -/
def findFirstIdx (p : α → Bool) : List α → Option Nat
  | [] => none
  | a :: l => if p a then some 0 else (findFirstIdx p l).map (· + 1)

/-! ## Concrete fixtures used by witnesses and counterexamples -/

/-- A one-board fixture state with a board titled "A". -/
def stFixA : LocalStoreState :=
  { boards := [{ id := .str "b1", title := "A", lists := [], createdAt := .str "c",
                 lastModified := .str "m", isArchived := false }]
    writes := [] }

/-- The board produced by `validateBoard` on the export of a stored board
with a non-empty title: the round-trip result before id regeneration. -/
def exportValidated (B : LBoard) (ts : Nat) (nowIso : String) : LBoard :=
  { id := jsOr (some B.id) (.str s!"temp-{ts}")
    title := B.title
    lists := processLists (B.lists.map listToJson) ts
    createdAt := jsOr (some B.createdAt) (.str nowIso)
    lastModified := jsOr (some B.lastModified) (.str nowIso)
    isArchived := jsEqTrue (some (.bool B.isArchived)) }

/-- A minimal structurally valid board JSON whose `isArchived` field holds
`v` (the field is absent when `v = none`). -/
def mkArchBoardJson (v : Option Json) : Json :=
  .obj ([("title", .str "T"), ("lists", .arr [])] ++
    (match v with
     | some d => [("isArchived", d)]
     | none => []))

/-- A board JSON with one list "L" holding one card "C" whose
`description` field holds `v` (the field is absent when `v = none`). -/
def mkDescBoardJson (v : Option Json) : Json :=
  .obj [("title", .str "T"),
        ("lists", .arr [.obj [("title", .str "L"),
          ("cards", .arr [.obj (("title", .str "C") ::
            (match v with
             | some d => [("description", d)]
             | none => []))])]])]

/-- The `isArchived` flag of a successful validation result. -/
def resultIsArchived (r : Except String LBoard) : Option Bool :=
  match r with
  | .ok b => some b.isArchived
  | .error _ => none

/-- The description of the first card of the first list of a successful
validation result. -/
def firstCardDescription (r : Except String LBoard) : Option Json :=
  match r with
  | .ok b =>
    match b.lists with
    | l :: _ =>
      match l.cards with
      | c :: _ => some c.description
      | [] => none
    | [] => none
  | .error _ => none

/-- The board titled "A" of the fixtures. -/
def bFixA : LBoard :=
  { id := .str "b1", title := "A", lists := [], createdAt := .str "cA",
    lastModified := .str "mA", isArchived := false }

/-- The board titled "B" of the fixtures. -/
def bFixB : LBoard :=
  { id := .str "b2", title := "B", lists := [], createdAt := .str "cB",
    lastModified := .str "mB", isArchived := false }

/-- A two-board fixture state. -/
def stFixAB : LocalStoreState :=
  { boards := [bFixA, bFixB], writes := [] }

/-- Fixture cards and lists for the database-backed store. -/
def pcFix : PCard :=
  { id := "c1", title := "C1", description := "", position := 5 }

def pcFix2 : PCard :=
  { id := "c2", title := "C2", description := "d", position := 9 }

def plFix : PList :=
  { id := "l1", title := "L1", position := 7, cards := [pcFix] }

def plFix2 : PList :=
  { id := "l2", title := "L2", position := 3, cards := [] }

/-- A fixture board for the database-backed store, holding one list. -/
def pbFix : PBoard :=
  { id := "b1", title := "PB", lists := [plFix], createdAt := "c",
    lastModified := "m", isArchived := false }

/-- A fixture board whose id already has the generated-id pattern. -/
def bColl : LBoard :=
  { id := .str "board-0-0", title := "T", lists := [], createdAt := .str "c",
    lastModified := .str "m", isArchived := false }

/-- Fixture card, list, board and state for the round-trip witness. -/
def cFixW : LCard :=
  { id := .str "c1", title := "C", description := .str "d" }

def lFixW : LList :=
  { id := .str "l1", title := "L", cards := [cFixW] }

def bFixW : LBoard :=
  { id := .str "bW", title := "T", lists := [lFixW], createdAt := .str "c",
    lastModified := .str "m", isArchived := false }

def stFixW : LocalStoreState :=
  { boards := [bFixW], writes := [] }

/-! ## Helper lemmas -/

theorem updateFirstLBoard_spec (id : String) (f : LBoard → LBoard) :
    ∀ (bs : List LBoard) (j : Nat) (tb : LBoard),
      findFirstIdx (fun x => x.id.eqStr id) bs = some j → bs[j]? = some tb →
      getBoardById bs id = some tb ∧ updateFirstLBoard bs id f = bs.set j (f tb) := by
  intro bs
  induction bs with
  | nil => intro j tb h; simp [findFirstIdx] at h
  | cons a rest ih =>
    intro j tb hidx hget
    by_cases ha : a.id.eqStr id = true
    · simp [findFirstIdx, ha] at hidx
      subst hidx
      simp at hget
      subst hget
      refine ⟨?_, ?_⟩
      · show List.find? _ _ = some a
        exact List.find?_cons_of_pos _ ha
      · simp [updateFirstLBoard, ha]
    · simp [findFirstIdx, ha] at hidx
      rcases hidx with ⟨j0, hj0, rfl⟩
      simp at hget
      have h2 := ih j0 tb hj0 hget
      refine ⟨?_, ?_⟩
      · show List.find? _ _ = some tb
        rw [List.find?_cons_of_neg _ (by simp [ha])]
        exact h2.1
      · simp [updateFirstLBoard, ha, h2.2]

theorem updateFirstLBoard_none (id : String) (f : LBoard → LBoard)
    (bs : List LBoard) (h : ∀ b ∈ bs, b.id.eqStr id = false) :
    getBoardById bs id = none ∧ updateFirstLBoard bs id f = bs := by
  induction bs with
  | nil => exact ⟨rfl, rfl⟩
  | cons a rest ih =>
    have ha := h a (List.mem_cons_self a rest)
    have hrest := ih (fun b hb => h b (List.mem_cons_of_mem a hb))
    refine ⟨?_, ?_⟩
    · simpa [getBoardById, List.find?_cons_of_neg, ha] using hrest.1
    · simp [updateFirstLBoard, ha, hrest.2]

/-- C2: for every input string that fails to parse as JSON, `importBoards`
returns `imported = 0`, `skipped = 0` and exactly the one parse error
message, leaves the in-memory board collection untouched, and performs no
persistence write. -/
theorem importBoards_parse_failure (msg : String) (gen : Nat → Nat × Nat)
    (ts : Nat) (nowIso : String) (st : LocalStoreState) :
    importBoards (.error msg) gen ts nowIso st = (st, ⟨0, 0, [msg]⟩) := rfl

/-- C6 counterexample: `createBoard` performs no validation — called with
the empty title on an empty store it adds a board whose title is the empty
string, and returns an id, contradicting the claim that it fails and adds
nothing. -/
theorem createBoard_empty_title_cex :
    ((createBoard ⟨[], []⟩ "" 0 "t0").1.boards.map (fun b => b.title)) = [""] ∧
    (createBoard ⟨[], []⟩ "" 0 "t0").2 = "board-0" :=
  ⟨rfl, rfl⟩

/-- C6 (amended): the store-level `createBoard` never validates: for every
title it appends one new board carrying exactly that title and returns the
new id; the empty-after-trim guard lives in the dashboard view handler,
which does not call `createBoard` when the entered name trims to empty and
otherwise passes the trimmed name. -/
theorem createBoard_no_validation (st : LocalStoreState) (title : String)
    (ts : Nat) (nowIso : String) :
    (∃ nb, (createBoard st title ts nowIso).1.boards = st.boards ++ [nb] ∧
      nb.title = title ∧ (createBoard st title ts nowIso).2 = s!"board-{ts}") ∧
    (jsTrim title = "" → dashboardCreateBoard st title ts nowIso = st) ∧
    (jsTrim title ≠ "" →
      dashboardCreateBoard st title ts nowIso = (createBoard st (jsTrim title) ts nowIso).1) := by
  refine ⟨⟨_, rfl, rfl, rfl⟩, ?_, ?_⟩
  · intro h
    simp [dashboardCreateBoard, h]
  · intro h
    simp [dashboardCreateBoard, h]

/-- C6 witness: the amended theorem applied to a one-space title on the
empty store. -/
theorem createBoard_no_validation_witness :
    dashboardCreateBoard ⟨[], []⟩ " " 0 "t" = ⟨[], []⟩ :=
  (createBoard_no_validation ⟨[], []⟩ " " 0 "t").2.1 (by decide)

/-- C7 counterexample: `updateBoardTitle` commits any title, including the
empty one — renaming the board titled "A" to `""` stores `""`,
contradicting the claim that the stored title is retained. -/
theorem updateBoardTitle_empty_commits_cex :
    ((updateBoardTitle stFixA "b1" "" "t1").boards.map (fun b => b.title)) = [""] ∧
    (stFixA.boards.map (fun b => b.title)) = ["A"] :=
  ⟨rfl, rfl⟩

/-- C7 (amended): the empty-after-trim guard lives in the board card's
`saveEdit`, which does not emit a rename when the edited title trims to
empty — so a rename driven through the editor leaves the store unchanged —
while the store-level `updateBoardTitle` itself commits any `newTitle`
unconditionally to the found board. -/
theorem saveEdit_skips_empty (st : LocalStoreState)
    (boardId editedTitle nowIso : String) :
    (jsTrim editedTitle = "" → saveEditRename st boardId editedTitle nowIso = st) ∧
    (∀ j b, findFirstIdx (fun x => x.id.eqStr boardId) st.boards = some j →
      st.boards[j]? = some b →
      (updateBoardTitle st boardId editedTitle nowIso).boards =
        st.boards.set j { b with title := editedTitle, lastModified := .str nowIso }) := by
  constructor
  · intro h
    simp [saveEditRename, h]
  · intro j b hidx hget
    have hspec := updateFirstLBoard_spec boardId
      (fun b => { b with title := editedTitle, lastModified := .str nowIso })
      st.boards j b hidx hget
    simp [updateBoardTitle, hspec.1, hspec.2]

/-- C7 witness: the amended theorem applied to the fixture board "A", with
a whitespace edit (no-op) and a direct store-level rename to "B". -/
theorem saveEdit_skips_empty_witness :
    saveEditRename stFixA "b1" " " "t2" = stFixA ∧
    (updateBoardTitle stFixA "b1" "B" "t2").boards =
      stFixA.boards.set 0
        { id := .str "b1", title := "B", lists := [], createdAt := .str "c",
          lastModified := .str "t2", isArchived := false } :=
  ⟨(saveEdit_skips_empty stFixA "b1" " " "t2").1 (by decide),
   (saveEdit_skips_empty stFixA "b1" "B" "t2").2 0 _ rfl rfl⟩

theorem updateFirstPBoard_spec (id : String) (f : PBoard → PBoard) :
    ∀ (bs : List PBoard) (j : Nat) (tb : PBoard),
      findFirstIdx (fun x => x.id == id) bs = some j → bs[j]? = some tb →
      getPBoardById bs id = some tb ∧ updateFirstPBoard bs id f = bs.set j (f tb) := by
  intro bs
  induction bs with
  | nil => intro j tb h; simp [findFirstIdx] at h
  | cons a rest ih =>
    intro j tb hidx hget
    by_cases ha : (a.id == id) = true
    · simp [findFirstIdx, ha] at hidx
      subst hidx
      simp at hget
      subst hget
      refine ⟨?_, ?_⟩
      · show List.find? _ _ = some a
        exact List.find?_cons_of_pos _ ha
      · simp [updateFirstPBoard, ha]
    · simp [findFirstIdx, ha] at hidx
      rcases hidx with ⟨j0, hj0, rfl⟩
      simp at hget
      have h2 := ih j0 tb hj0 hget
      refine ⟨?_, ?_⟩
      · show List.find? _ _ = some tb
        rw [List.find?_cons_of_neg _ (by simp [ha])]
        exact h2.1
      · simp [updateFirstPBoard, ha, h2.2]

theorem updateFirstPBoard_none (id : String) (f : PBoard → PBoard)
    (bs : List PBoard) (h : ∀ b ∈ bs, (b.id == id) = false) :
    getPBoardById bs id = none ∧ updateFirstPBoard bs id f = bs := by
  induction bs with
  | nil => exact ⟨rfl, rfl⟩
  | cons a rest ih =>
    have ha := h a (List.mem_cons_self a rest)
    have hrest := ih (fun b hb => h b (List.mem_cons_of_mem a hb))
    refine ⟨?_, ?_⟩
    · show List.find? _ _ = none
      rw [List.find?_cons_of_neg _ (by simp [ha])]
      exact hrest.1
    · simp [updateFirstPBoard, ha, hrest.2]

theorem find?_updateFirstPBoard (id : String) (f : PBoard → PBoard)
    (hpres : ∀ b, (f b).id = b.id) :
    ∀ bs : List PBoard,
      (updateFirstPBoard bs id f).find? (fun x => x.id == id) =
        (bs.find? (fun x => x.id == id)).map f := by
  intro bs
  induction bs with
  | nil => rfl
  | cons a rest ih =>
    simp only [updateFirstPBoard]
    by_cases ha : (a.id == id) = true
    · simp [ha, List.find?_cons, hpres]
    · simp [ha, List.find?_cons, ih]

theorem find?_updateFirstPList (id : String) (f : PList → PList)
    (hpres : ∀ l, (f l).id = l.id) :
    ∀ ls : List PList,
      (updateFirstPList ls id f).find? (fun x => x.id == id) =
        (ls.find? (fun x => x.id == id)).map f := by
  intro ls
  induction ls with
  | nil => rfl
  | cons a rest ih =>
    simp only [updateFirstPList]
    by_cases ha : (a.id == id) = true
    · simp [ha, List.find?_cons, hpres]
    · simp [ha, List.find?_cons, ih]

theorem map_mapIdxFrom {α β γ : Type _} (f : Nat → α → β) (g : β → γ) (g0 : α → γ)
    (h : ∀ i a, g (f i a) = g0 a) :
    ∀ (l : List α) (s : Nat), (mapIdxFrom s f l).map g = l.map g0 := by
  intro l
  induction l with
  | nil => intro s; rfl
  | cons a rest ih => intro s; simp [mapIdxFrom, h, ih]

theorem map_mapIdxFrom_idx {α β γ : Type _} (f : Nat → α → β) (g : β → γ) (h : Nat → γ)
    (hyp : ∀ i a, g (f i a) = h i) :
    ∀ (l : List α) (s : Nat),
      (mapIdxFrom s f l).map g = (List.range' s l.length).map h := by
  intro l
  induction l with
  | nil => intro s; rfl
  | cons a rest ih => intro s; simp [mapIdxFrom, List.range'_succ, hyp, ih]

theorem getPBoardById_updateFirst (id : String) (f : PBoard → PBoard)
    (hpres : ∀ b, (f b).id = b.id) (bs : List PBoard) (tb : PBoard)
    (h : getPBoardById bs id = some tb) :
    getPBoardById (updateFirstPBoard bs id f) id = some (f tb) := by
  show List.find? _ _ = _
  rw [find?_updateFirstPBoard id f hpres bs,
    show List.find? (fun x => x.id == id) bs = some tb from h]
  rfl

theorem find?_updateFirstPList_some (id : String) (f : PList → PList)
    (hpres : ∀ l, (f l).id = l.id) (ls : List PList) (tl : PList)
    (h : ls.find? (fun x => x.id == id) = some tl) :
    (updateFirstPList ls id f).find? (fun x => x.id == id) = some (f tl) := by
  rw [find?_updateFirstPList id f hpres ls, h]
  rfl

/-- C9: `archiveBoard` and `unarchiveBoard` modify only the `isArchived`
flag and the `lastModified` timestamp of the first board carrying the
targeted id — its id, title, `createdAt` and entire lists tree are kept,
and every other board is untouched (`List.set` of a record update) — and
when no board carries the id the whole state is unchanged. -/
theorem archive_unarchive_frame (st : LocalStoreState) (boardId nowIso : String) :
    ((∀ b ∈ st.boards, b.id.eqStr boardId = false) →
      archiveBoard st boardId nowIso = st ∧ unarchiveBoard st boardId nowIso = st) ∧
    (∀ j tb, findFirstIdx (fun x => x.id.eqStr boardId) st.boards = some j →
      st.boards[j]? = some tb →
      (archiveBoard st boardId nowIso).boards =
        st.boards.set j { tb with isArchived := true, lastModified := .str nowIso } ∧
      (unarchiveBoard st boardId nowIso).boards =
        st.boards.set j { tb with isArchived := false, lastModified := .str nowIso }) := by
  constructor
  · intro h
    have hn := updateFirstLBoard_none boardId id st.boards h
    constructor
    · simp [archiveBoard, hn.1]
    · simp [unarchiveBoard, hn.1]
  · intro j tb hidx hget
    constructor
    · have hspec := updateFirstLBoard_spec boardId
        (fun b => { b with isArchived := true, lastModified := .str nowIso })
        st.boards j tb hidx hget
      simp [archiveBoard, hspec.1, hspec.2]
    · have hspec := updateFirstLBoard_spec boardId
        (fun b => { b with isArchived := false, lastModified := .str nowIso })
        st.boards j tb hidx hget
      simp [unarchiveBoard, hspec.1, hspec.2]

/-- C9 witness: archiving/unarchiving board "b2" of the two-board fixture
rewrites exactly index 1, and an unknown id leaves the state unchanged. -/
theorem archive_unarchive_frame_witness :
    (archiveBoard stFixAB "b2" "t7").boards =
      stFixAB.boards.set 1 { bFixB with isArchived := true, lastModified := .str "t7" } ∧
    (unarchiveBoard stFixAB "b2" "t7").boards =
      stFixAB.boards.set 1 { bFixB with isArchived := false, lastModified := .str "t7" } ∧
    archiveBoard stFixAB "zz" "t7" = stFixAB := by
  have h2 := (archive_unarchive_frame stFixAB "b2" "t7").2 1 bFixB rfl rfl
  have h1 := ((archive_unarchive_frame stFixAB "zz" "t7").1 (by decide)).1
  exact ⟨h2.1, h2.2, h1⟩

/-- C4: after `updateListPositions` (`reorderLists`) with a sequence of
`n` lists, the found board's lists are the supplied sequence in order with
positions exactly `0, 1, ..., n-1`; after `updateCardPositions`
(`reorderCards`) with `n` cards, the found list's cards are the supplied
sequence in order with positions exactly `0, 1, ..., n-1`. -/
theorem reorder_positions_dense (bs : List PBoard) (boardId listId : String)
    (lists : List PList) (cards : List PCard) (nowIso : String) :
    (∀ tb, getPBoardById bs boardId = some tb →
      ∃ nb, getPBoardById (updateListPositions bs boardId lists nowIso) boardId = some nb ∧
        nb.lists.map (fun l => l.position) = (List.range lists.length).map Int.ofNat ∧
        nb.lists.map (fun l => (l.id, l.title, l.cards)) =
          lists.map (fun l => (l.id, l.title, l.cards))) ∧
    (∀ tb tl, getPBoardById bs boardId = some tb →
      tb.lists.find? (fun x => x.id == listId) = some tl →
      ∃ nb nl,
        getPBoardById (updateCardPositions bs boardId listId cards nowIso) boardId = some nb ∧
        nb.lists.find? (fun x => x.id == listId) = some nl ∧
        nl.cards.map (fun c => c.position) = (List.range cards.length).map Int.ofNat ∧
        nl.cards.map (fun c => (c.id, c.title, c.description)) =
          cards.map (fun c => (c.id, c.title, c.description))) := by
  constructor
  · intro tb htb
    refine ⟨_, getPBoardById_updateFirst boardId
      (fun board =>
        { board with
          lists := mapIdxFrom 0 (fun index list => { list with position := (index : Int) }) lists
          lastModified := nowIso })
      (fun b => rfl) bs tb htb, ?_, ?_⟩
    · show (mapIdxFrom 0
          (fun index list => { list with position := (index : Int) }) lists).map
          (fun l => l.position) = _
      rw [List.range_eq_range']
      apply map_mapIdxFrom_idx
      intro i a
      rfl
    · show (mapIdxFrom 0
          (fun index list => { list with position := (index : Int) }) lists).map
          (fun l => (l.id, l.title, l.cards)) = _
      apply map_mapIdxFrom
      intro i a
      rfl
  · intro tb tl htb htl
    refine ⟨_, _, getPBoardById_updateFirst boardId
      (fun board =>
        { board with
          lists := updateFirstPList board.lists listId (fun list =>
            { list with
              cards := mapIdxFrom 0
                (fun index card => { card with position := (index : Int) }) cards })
          lastModified := nowIso })
      (fun b => rfl) bs tb htb,
      find?_updateFirstPList_some listId
        (fun list =>
          { list with
            cards := mapIdxFrom 0
              (fun index card => { card with position := (index : Int) }) cards })
        (fun l => rfl) tb.lists tl htl, ?_, ?_⟩
    · show (mapIdxFrom 0
          (fun index card => { card with position := (index : Int) }) cards).map
          (fun c => c.position) = _
      rw [List.range_eq_range']
      apply map_mapIdxFrom_idx
      intro i a
      rfl
    · show (mapIdxFrom 0
          (fun index card => { card with position := (index : Int) }) cards).map
          (fun c => (c.id, c.title, c.description)) = _
      apply map_mapIdxFrom
      intro i a
      rfl

/-- C4 witness: reordering the fixture board's lists to `[plFix2, plFix]`
and the fixture list's cards to `[pcFix2, pcFix]` yields positions `[0, 1]`
in the supplied order. -/
theorem reorder_positions_dense_witness :
    (∃ nb, getPBoardById (updateListPositions [pbFix] "b1" [plFix2, plFix] "t4") "b1" = some nb ∧
      nb.lists.map (fun l => l.position) =
        (List.range ([plFix2, plFix] : List PList).length).map Int.ofNat ∧
      nb.lists.map (fun l => (l.id, l.title, l.cards)) =
        ([plFix2, plFix] : List PList).map (fun l => (l.id, l.title, l.cards))) ∧
    (∃ nb nl,
      getPBoardById (updateCardPositions [pbFix] "b1" "l1" [pcFix2, pcFix] "t4") "b1" = some nb ∧
      nb.lists.find? (fun x => x.id == "l1") = some nl ∧
      nl.cards.map (fun c => c.position) =
        (List.range ([pcFix2, pcFix] : List PCard).length).map Int.ofNat ∧
      nl.cards.map (fun c => (c.id, c.title, c.description)) =
        ([pcFix2, pcFix] : List PCard).map (fun c => (c.id, c.title, c.description))) :=
  ⟨(reorder_positions_dense [pbFix] "b1" "l1" [plFix2, plFix] [pcFix2, pcFix] "t4").1 pbFix rfl,
   (reorder_positions_dense [pbFix] "b1" "l1" [plFix2, plFix] [pcFix2, pcFix] "t4").2
     pbFix plFix rfl rfl⟩

/-- C5 counterexample: `reorderLists` with the empty sequence is not a
no-op — on a board holding one list it clears the in-memory list collection
and bumps `lastModified`. -/
theorem reorder_empty_wipes_lists_cex :
    ((updateListPositions [pbFix] "b1" [] "t5").map (fun b => b.lists.length)) = [0] ∧
    ([pbFix].map (fun b => b.lists.length)) = [1] ∧
    ((updateListPositions [pbFix] "b1" [] "t5").map (fun b => b.lastModified)) = ["t5"] :=
  ⟨rfl, rfl, rfl⟩

/-- C5 (amended): `updateListPositions` with the empty sequence replaces
the found board's `lists` by the empty sequence and bumps `lastModified`,
leaving its other fields and every other board unchanged; when no board
carries the id, the collection is unchanged. -/
theorem reorder_empty_clears (bs : List PBoard) (boardId nowIso : String) :
    ((∀ b ∈ bs, (b.id == boardId) = false) →
      updateListPositions bs boardId [] nowIso = bs) ∧
    (∀ j tb, findFirstIdx (fun x => x.id == boardId) bs = some j → bs[j]? = some tb →
      updateListPositions bs boardId [] nowIso =
        bs.set j { tb with lists := [], lastModified := nowIso }) := by
  constructor
  · intro h
    exact (updateFirstPBoard_none boardId _ bs h).2
  · intro j tb hidx hget
    exact (updateFirstPBoard_spec boardId _ bs j tb hidx hget).2

/-- C5 witness: the amended theorem applied to the one-list fixture board
(index 0) and to an unknown board id. -/
theorem reorder_empty_clears_witness :
    updateListPositions [pbFix] "b1" [] "t6" =
      [pbFix].set 0 { pbFix with lists := [], lastModified := "t6" } ∧
    updateListPositions [pbFix] "zz" [] "t6" = [pbFix] :=
  ⟨(reorder_empty_clears [pbFix] "b1" "t6").2 0 pbFix rfl rfl,
   (reorder_empty_clears [pbFix] "zz" "t6").1 (by decide)⟩

theorem resultIsArchived_eq (v : Option Json) (ts : Nat) (nowIso : String) :
    resultIsArchived (validateBoard (mkArchBoardJson v) ts nowIso) = some (jsEqTrue v) := by
  rcases v with _ | d
  · rfl
  · cases d with
    | null => rfl
    | bool b => cases b <;> rfl
    | num n => rfl
    | str s => rfl
    | arr xs => rfl
    | obj fs => rfl

/-- C10: an imported board is marked archived iff the input object's
`isArchived` field is the boolean `true`; for the string "true", the
number 1, `null`, or an absent field the imported board is not archived. -/
theorem imported_isArchived_iff_true (v : Option Json) (ts : Nat) (nowIso : String) :
    (resultIsArchived (validateBoard (mkArchBoardJson v) ts nowIso) = some true ↔
      v = some (.bool true)) ∧
    resultIsArchived (validateBoard (mkArchBoardJson (some (.str "true"))) ts nowIso) =
      some false ∧
    resultIsArchived (validateBoard (mkArchBoardJson (some (.num 1))) ts nowIso) =
      some false ∧
    resultIsArchived (validateBoard (mkArchBoardJson (some .null)) ts nowIso) =
      some false ∧
    resultIsArchived (validateBoard (mkArchBoardJson none) ts nowIso) = some false := by
  refine ⟨?_, rfl, rfl, rfl, rfl⟩
  rw [resultIsArchived_eq]
  constructor
  · intro h
    have hb : jsEqTrue v = true := by simpa using h
    rcases v with _ | d
    · exact absurd hb (by simp [jsEqTrue])
    · cases d with
      | bool b =>
        cases b
        · exact absurd hb (by simp [jsEqTrue])
        · rfl
      | null => exact absurd hb (by simp [jsEqTrue])
      | num n => exact absurd hb (by simp [jsEqTrue])
      | str s => exact absurd hb (by simp [jsEqTrue])
      | arr xs => exact absurd hb (by simp [jsEqTrue])
      | obj fs => exact absurd hb (by simp [jsEqTrue])
  · rintro rfl
    rfl

/-- C10 witness: the iff applied at the boolean `true` input. -/
theorem imported_isArchived_iff_true_witness :
    resultIsArchived (validateBoard (mkArchBoardJson (some (.bool true))) 0 "n") = some true :=
  (imported_isArchived_iff_true (some (.bool true)) 0 "n").1.mpr rfl

theorem firstCardDescription_eq (v : Option Json) (ts : Nat) (nowIso : String) :
    firstCardDescription (validateBoard (mkDescBoardJson v) ts nowIso) =
      some (jsOr v (.str "")) := by
  rcases v with _ | d <;> rfl

/-- C8 counterexample: a card whose `description` is the truthy non-string
number 5 keeps that value — the resulting description is `5`, not the
empty string the claim requires for every non-string. -/
theorem card_description_num_kept_cex :
    firstCardDescription (validateBoard (mkDescBoardJson (some (.num 5))) 0 "n") =
      some (.num 5) ∧
    Json.num 5 ≠ Json.str "" :=
  ⟨rfl, fun h => Json.noConfusion h⟩

/-- C8 (amended): an imported card's description defaults to the empty
string exactly when the `description` field is absent or falsy (`""`,
`null`, `false`, `0`); a truthy value — including a truthy non-string —
is kept unchanged. -/
theorem card_description_default (v : Option Json) (ts : Nat) (nowIso : String) :
    (jsTruthyOpt v = false →
      firstCardDescription (validateBoard (mkDescBoardJson v) ts nowIso) = some (.str "")) ∧
    (∀ d, v = some d → d.truthy = true →
      firstCardDescription (validateBoard (mkDescBoardJson v) ts nowIso) = some d) := by
  constructor
  · intro h
    rw [firstCardDescription_eq]
    rcases v with _ | d
    · rfl
    · simp only [jsTruthyOpt] at h
      simp [jsOr, h]
  · rintro d rfl h
    rw [firstCardDescription_eq]
    simp [jsOr, h]

/-- C8 witness: the amended theorem applied to a falsy (`false`) and a
truthy (`7`) description value. -/
theorem card_description_default_witness :
    firstCardDescription (validateBoard (mkDescBoardJson (some (.bool false))) 0 "n") =
      some (.str "") ∧
    firstCardDescription (validateBoard (mkDescBoardJson (some (.num 7))) 0 "n") =
      some (.num 7) :=
  ⟨(card_description_default (some (.bool false)) 0 "n").1 rfl,
   (card_description_default (some (.num 7)) 0 "n").2 (.num 7) rfl rfl⟩

/-- C3: over any candidate sequence, each structurally invalid board adds
one to `skipped` and appends exactly one error carrying its 1-based ordinal
position, while valid boards add none (so invalid lists/cards inside them
are dropped without an error); concretely, importing
`[{"title":""},{"title":"Valid","lists":[]}]` yields imported 1, skipped 1
and the single error "Board 1: Missing or invalid board title", and
importing a board with a non-object list entry and a non-object card entry
still imports it with those entries dropped and no error. -/
theorem import_invalid_boards_errors (cands : List Json) (i k ts : Nat)
    (gen : Nat → Nat × Nat) (nowIso : String) :
    ((importLoop cands i k ts gen nowIso).2.errors =
      (List.enumFrom i cands).filterMap (fun p =>
        match validateBoard p.2 ts nowIso with
        | .error e => some s!"Board {p.1 + 1}: {e}"
        | .ok _ => none) ∧
     (importLoop cands i k ts gen nowIso).2.skipped =
       (cands.filter (fun c => !(validateOk c ts nowIso))).length ∧
     (importLoop cands i k ts gen nowIso).2.imported =
       (cands.filter (fun c => validateOk c ts nowIso)).length) ∧
    (importBoards (.ok (.arr [.obj [("title", .str "")],
        .obj [("title", .str "Valid"), ("lists", .arr [])]])) gen ts nowIso
        ⟨[], []⟩).2 =
      ⟨1, 1, ["Board 1: Missing or invalid board title"]⟩ ∧
    (importBoards (.ok (.obj [("title", .str "B"),
        ("lists", .arr [.num 3, .obj [("title", .str "L"),
          ("cards", .arr [.null, .obj [("title", .str "C")]])]])])) gen ts nowIso
        ⟨[], []⟩).2 =
      ⟨1, 0, []⟩ ∧
    ((importBoards (.ok (.obj [("title", .str "B"),
        ("lists", .arr [.num 3, .obj [("title", .str "L"),
          ("cards", .arr [.null, .obj [("title", .str "C")]])]])])) gen ts nowIso
        ⟨[], []⟩).1.boards.map
      (fun b => b.lists.map (fun l => l.cards.length))) = [[1]] := by
  refine ⟨?_, rfl, rfl, rfl⟩
  induction cands generalizing i k with
  | nil => simp [importLoop, validateOk]
  | cons c rest ih =>
    cases hv : validateBoard c ts nowIso with
    | ok b =>
      have h3 := ih (i + 1) (k + 1)
      simp [importLoop, hv, List.enumFrom_cons, validateOk, h3.1, h3.2.1, h3.2.2]
    | error e =>
      have h3 := ih (i + 1) k
      simp [importLoop, hv, List.enumFrom_cons, validateOk, h3.1, h3.2.1, h3.2.2]

theorem jsOr_self_of_wf (d : Json) (h : (d.truthy || d.eqStr "") = true) :
    jsOr (some d) (.str "") = d := by
  have hor : d.truthy = true ∨ d.eqStr "" = true := by simpa using h
  rcases hor with h1 | h2
  · simp [jsOr, h1]
  · cases d with
    | str s =>
      have hs : s = "" := by simpa [Json.eqStr] using h2
      subst hs
      rfl
    | null => simp [Json.eqStr] at h2
    | bool b => simp [Json.eqStr] at h2
    | num n => simp [Json.eqStr] at h2
    | arr xs => simp [Json.eqStr] at h2
    | obj fs => simp [Json.eqStr] at h2

theorem validateCardEntry_export (c : LCard) (ts : Nat) (ht : ¬ (c.title = "")) :
    validateCardEntry (cardToJson c) ts =
      some { id := jsOr (some c.id) (.str s!"temp-{ts}")
             title := c.title
             description := jsOr (some c.description) (.str "") } := by
  show (if c.title = "" then none else some _) = some _
  rw [if_neg ht]
  rfl

theorem processCards_roundtrip (ts : Nat) :
    ∀ cs : List LCard, cs.all LCard.wf = true →
      (processCards (cs.map cardToJson) ts).map LCard.shape = cs.map LCard.shape := by
  intro cs
  induction cs with
  | nil => intro h; rfl
  | cons c rest ih =>
    intro h
    rw [List.all_cons, Bool.and_eq_true_iff] at h
    have hc := Bool.and_eq_true_iff.mp h.1
    have ht : ¬ (c.title = "") := by simpa using hc.1
    have hstep := validateCardEntry_export c ts ht
    show ((cardToJson c :: rest.map cardToJson).filterMap
        (fun card => validateCardEntry card ts)).map LCard.shape = _
    rw [@List.filterMap_cons_some _ _ (fun card => validateCardEntry card ts)
      (cardToJson c) (rest.map cardToJson) _ hstep]
    show LCard.shape _ :: (processCards (rest.map cardToJson) ts).map LCard.shape = _
    rw [ih h.2]
    show (c.title, jsOr (some c.description) (.str "")) :: _ = _
    rw [jsOr_self_of_wf c.description hc.2]
    rfl

theorem validateListEntry_export (l : LList) (ts : Nat) (ht : ¬ (l.title = "")) :
    validateListEntry (listToJson l) ts =
      some { id := jsOr (some l.id) (.str s!"temp-{ts}")
             title := l.title
             cards := processCards (l.cards.map cardToJson) ts } := by
  show (if l.title = "" then none else some _) = some _
  rw [if_neg ht]
  rfl

theorem processLists_roundtrip (ts : Nat) :
    ∀ ls : List LList, ls.all LList.wf = true →
      (processLists (ls.map listToJson) ts).map LList.shape = ls.map LList.shape := by
  intro ls
  induction ls with
  | nil => intro h; rfl
  | cons l rest ih =>
    intro h
    rw [List.all_cons, Bool.and_eq_true_iff] at h
    have hl := Bool.and_eq_true_iff.mp h.1
    have ht : ¬ (l.title = "") := by simpa using hl.1
    have hstep := validateListEntry_export l ts ht
    show ((listToJson l :: rest.map listToJson).filterMap
        (fun list => validateListEntry list ts)).map LList.shape = _
    rw [@List.filterMap_cons_some _ _ (fun list => validateListEntry list ts)
      (listToJson l) (rest.map listToJson) _ hstep]
    show LList.shape _ :: (processLists (rest.map listToJson) ts).map LList.shape = _
    rw [ih h.2]
    show (l.title, (processCards (l.cards.map cardToJson) ts).map LCard.shape) :: _ = _
    rw [processCards_roundtrip ts l.cards hl.2]
    rfl

theorem validateBoard_export (B : LBoard) (ts : Nat) (nowIso : String)
    (ht : ¬ (B.title = "")) :
    validateBoard (boardToJson B) ts nowIso = .ok (exportValidated B ts nowIso) := by
  show (if B.title = "" then Except.error "Missing or invalid board title"
        else .ok (exportValidated B ts nowIso)) = .ok (exportValidated B ts nowIso)
  rw [if_neg ht]

theorem shape_exportValidated (B : LBoard) (ts : Nat) (nowIso : String)
    (h : B.lists.all LList.wf = true) :
    (exportValidated B ts nowIso).shape = B.shape := by
  show (B.title, (processLists (B.lists.map listToJson) ts).map LList.shape) = _
  rw [processLists_roundtrip ts B.lists h]
  rfl

theorem shape_generateNewIds (b : LBoard) (t r : Nat) :
    (generateNewIds b t r).shape = b.shape := by
  show (b.title, (mapIdxFrom 0 _ b.lists).map LList.shape) = (b.title, b.lists.map LList.shape)
  congr 1
  calc (mapIdxFrom 0 (fun listIndex list =>
          { list with
            id := Json.str s!"list-{t}-{r}-{listIndex}"
            cards := mapIdxFrom 0 (fun cardIndex card =>
              { card with id := Json.str s!"card-{t}-{r}-{listIndex}-{cardIndex}" })
              list.cards }) b.lists).map LList.shape
      = b.lists.map LList.shape := by
        apply map_mapIdxFrom
        intro i a
        show (a.title, (mapIdxFrom 0 _ a.cards).map LCard.shape) = (a.title, a.cards.map LCard.shape)
        congr 1
        apply map_mapIdxFrom
        intro j c
        rfl

theorem cardCounts_eq_of_shape (b1 b2 : LBoard) (h : b1.shape = b2.shape) :
    cardCounts b1 = cardCounts b2 := by
  have h2 := congrArg (fun p => p.2.map (fun q => q.2.length)) h
  simp only [LBoard.shape, List.map_map] at h2
  have he : ((fun q : String × List (String × Json) => q.2.length) ∘ LList.shape)
      = fun l : LList => l.cards.length := by
    funext l
    simp [LList.shape]
  rw [he] at h2
  simpa [cardCounts] using h2

theorem genIds_aux (t r : Nat) :
    ∀ (ls : List LList) (s : Nat),
      (mapIdxFrom s (fun listIndex (list : LList) =>
          { list with
            id := Json.str s!"list-{t}-{r}-{listIndex}"
            cards := mapIdxFrom 0 (fun cardIndex (card : LCard) =>
              { card with id := Json.str s!"card-{t}-{r}-{listIndex}-{cardIndex}" })
              list.cards }) ls).flatMap
        (fun l => l.id :: l.cards.map (fun c => c.id)) =
      ((mapIdxFrom s (fun i n =>
          s!"list-{t}-{r}-{i}" :: (List.range n).map (fun j => s!"card-{t}-{r}-{i}-{j}"))
        (ls.map (fun l => l.cards.length))).flatten).map Json.str := by
  intro ls
  induction ls with
  | nil => intro s; rfl
  | cons l rest ih =>
    intro s
    show (_ :: _).flatMap _ = ((_ :: _).flatten).map Json.str
    rw [List.flatMap_cons, List.flatten_cons, List.map_append, ih]
    congr 1
    show Json.str _ :: (mapIdxFrom 0 _ l.cards).map (fun c : LCard => c.id) = _
    rw [List.map_cons]
    congr 1
    calc (mapIdxFrom 0 (fun cardIndex (card : LCard) =>
            { card with id := Json.str s!"card-{t}-{r}-{s}-{cardIndex}" }) l.cards).map
          (fun c => c.id)
        = (List.range' 0 l.cards.length).map
            (fun j => Json.str s!"card-{t}-{r}-{s}-{j}") := by
          apply map_mapIdxFrom_idx
          intro i a
          rfl
      _ = ((List.range l.cards.length).map (fun j => s!"card-{t}-{r}-{s}-{j}")).map Json.str := by
          rw [List.map_map, List.range_eq_range']
          rfl

theorem allIds_generateNewIds (b : LBoard) (t r : Nat) :
    (generateNewIds b t r).allIds = (genIdStrings t r (cardCounts b)).map Json.str := by
  show Json.str _ :: (mapIdxFrom 0 _ b.lists).flatMap _ = _
  rw [genIdStrings, List.map_cons]
  congr 1
  exact genIds_aux t r b.lists 0

/-- C1 counterexample: the regenerated identifiers are built from
`Date.now()` and a random draw, so they can collide with pre-existing ids.
Importing the export of the board whose id is already "board-0-0", at
timestamp 0 with random draw 0, appends a board whose id equals the
pre-existing board's id, contradicting the claimed unconditional
distinctness. -/
theorem export_import_id_collision_cex :
    ((importBoards (.ok (boardToJson bColl)) (fun _ => (0, 0)) 0 "n"
        ⟨[bColl], []⟩).1.boards.map (fun b => b.id)) =
      [.str "board-0-0", .str "board-0-0"] ∧
    (importBoards (.ok (boardToJson bColl)) (fun _ => (0, 0)) 0 "n"
        ⟨[bColl], []⟩).2.imported = 1 :=
  ⟨rfl, rfl⟩

/-- C1 (amended): for every structurally valid stored board `B` (non-empty
board, list and card titles; descriptions surviving the `||` default),
importing the JSON export of `B` yields imported 1, skipped 0, no errors,
and appends exactly one new board whose titles, descriptions and structure
equal `B`'s and whose identifiers are exactly the strings minted by
`generateNewIds` from the import's `(Date.now(), random)` pair; provided
none of those minted strings occurs as an id in a pre-existing board, every
id of the new board differs from every id of every pre-existing board
(including `B` itself). -/
theorem export_import_roundtrip (st : LocalStoreState) (B : LBoard)
    (gen : Nat → Nat × Nat) (ts : Nat) (nowIso : String)
    (_hmem : B ∈ st.boards) (hwf : B.wf = true) :
    ∃ newB,
      (importBoards (.ok (boardToJson B)) gen ts nowIso st).1.boards =
        st.boards ++ [newB] ∧
      (importBoards (.ok (boardToJson B)) gen ts nowIso st).2 = ⟨1, 0, []⟩ ∧
      newB.shape = B.shape ∧
      newB.allIds = (genIdStrings (gen 0).1 (gen 0).2 (cardCounts B)).map Json.str ∧
      ((∀ p ∈ st.boards, ∀ x ∈ p.allIds,
          ∀ idStr ∈ genIdStrings (gen 0).1 (gen 0).2 (cardCounts B),
          x.eqStr idStr = false) →
        ∀ p ∈ st.boards, ∀ x ∈ p.allIds, ∀ y ∈ newB.allIds, x ≠ y) := by
  have hwf2 : (B.title != "") = true ∧ B.lists.all LList.wf = true := by
    simpa [LBoard.wf] using hwf
  have ht : ¬ (B.title = "") := by simpa using hwf2.1
  have hok := validateBoard_export B ts nowIso ht
  have harr : (match boardToJson B with
      | Json.arr xs => xs
      | j => [j]) = [boardToJson B] := rfl
  have hloop : importLoop [boardToJson B] 0 0 ts gen nowIso =
      ([{ generateNewIds (exportValidated B ts nowIso) (gen 0).1 (gen 0).2 with
          lastModified := .str nowIso }], ⟨1, 0, []⟩) := by
    simp [importLoop, hok]
  have hfull : importBoards (.ok (boardToJson B)) gen ts nowIso st =
      ({ boards := st.boards ++
            [{ generateNewIds (exportValidated B ts nowIso) (gen 0).1 (gen 0).2 with
               lastModified := .str nowIso }]
         writes := st.writes ++
            [st.boards ++
              [{ generateNewIds (exportValidated B ts nowIso) (gen 0).1 (gen 0).2 with
                 lastModified := .str nowIso }]] },
        ⟨1, 0, []⟩) := by
    simp only [importBoards]
    rw [harr, hloop]
    simp
  have hids : ({ generateNewIds (exportValidated B ts nowIso) (gen 0).1 (gen 0).2 with
      lastModified := Json.str nowIso } : LBoard).allIds =
      (genIdStrings (gen 0).1 (gen 0).2 (cardCounts B)).map Json.str := by
    show (generateNewIds (exportValidated B ts nowIso) (gen 0).1 (gen 0).2).allIds = _
    rw [allIds_generateNewIds, cardCounts_eq_of_shape (exportValidated B ts nowIso) B
      (shape_exportValidated B ts nowIso hwf2.2)]
  refine ⟨{ generateNewIds (exportValidated B ts nowIso) (gen 0).1 (gen 0).2 with
      lastModified := .str nowIso }, ?_, ?_, ?_, hids, ?_⟩
  · rw [hfull]
  · rw [hfull]
  · show (generateNewIds (exportValidated B ts nowIso) (gen 0).1 (gen 0).2).shape = B.shape
    rw [shape_generateNewIds, shape_exportValidated B ts nowIso hwf2.2]
  · intro hfresh p hp x hx y hy
    rw [hids] at hy
    rcases List.mem_map.mp hy with ⟨idStr, hidStr, rfl⟩
    intro heq
    have hxy := hfresh p hp x hx idStr hidStr
    rw [heq] at hxy
    simp [Json.eqStr] at hxy

/-- C1 witness: the amended theorem applied to a one-board state holding a
valid board with one list and one card, at timestamp 3 and random draw 4. -/
theorem export_import_roundtrip_witness :
    ∃ newB,
      (importBoards (.ok (boardToJson bFixW)) (fun _ => (3, 4)) 9 "now" stFixW).1.boards =
        stFixW.boards ++ [newB] ∧
      (importBoards (.ok (boardToJson bFixW)) (fun _ => (3, 4)) 9 "now" stFixW).2 =
        ⟨1, 0, []⟩ ∧
      newB.shape = bFixW.shape ∧
      newB.allIds = (genIdStrings 3 4 (cardCounts bFixW)).map Json.str ∧
      ((∀ p ∈ stFixW.boards, ∀ x ∈ p.allIds,
          ∀ idStr ∈ genIdStrings 3 4 (cardCounts bFixW),
          x.eqStr idStr = false) →
        ∀ p ∈ stFixW.boards, ∀ x ∈ p.allIds, ∀ y ∈ newB.allIds, x ≠ y) :=
  export_import_roundtrip stFixW bFixW (fun _ => (3, 4)) 9 "now"
    (List.mem_singleton.mpr rfl) (by decide)
